import Mathlib

/-!
# oci-photos: the registry-notification webhook (`main.go`)

A shallow embedding of `NotificationHandler` and `GetDescriptionFromOpenAI`.

* The container registry (oras), the HTTP client and `encoding/json` are external
  collaborators.  They are gathered in `Env`: every operation that talks to the
  outside world takes the current world state and returns its outcome together
  with the next world state, so that two calls with the same arguments may have
  different outcomes.
* A Go `(value, error)` result is an `Option` (`none` is a non-nil error) where the
  error value is only logged, and a `String × Option String` pair where the
  function under study builds it.  A run-time panic is an outcome of its own.
* The calls that the handler makes to the registry (repository resolution, manifest
  fetch, layer fetch, push, tag) and to the description service are recorded, in
  order, in a list of `Effect`s.  Reads of a stream that is already open, JSON
  coding and `slog` calls are not recorded.
* The loop over the layers is given by its state after `k` iterations
  (`layersAfter`), so that the world in which iteration `i` starts can be named.
-/

namespace OciPhotos

/-! ## Data model -/

/-- A byte string; every element is read modulo 256. -/
abbrev Bytes := List Nat

/-- A Go `map[string]string` that is not nil, as an association list.  The first
entry of a key is the one that counts. -/
abbrev Annotations := List (String × String)

/-- The type `v1.Platform` of the OCI image specification. -/
structure Platform where
  architecture : String
  os : String
  osVersion : String
  osFeatures : List String
  variant : String
deriving DecidableEq, Repr

/-- The type `v1.Descriptor`; `annotations = none` is the nil map. -/
structure Descriptor where
  mediaType : String
  digest : String
  size : Int
  urls : List String
  annotations : Option Annotations
  data : Bytes
  platform : Option Platform
  artifactType : String
deriving DecidableEq, Repr

/-- The type `v1.Manifest`; `annotations = none` is the nil map. -/
structure Manifest where
  schemaVersion : Int
  mediaType : String
  artifactType : String
  config : Descriptor
  layers : List Descriptor
  subject : Option Descriptor
  annotations : Option Annotations
deriving DecidableEq, Repr

/-- The struct `Target` of `main.go`. -/
structure Target where
  MediaType : String
  Size : Int
  Digest : String
  Repository : String
  URL : String
  Tag : String
deriving DecidableEq, Repr

/-- The struct `Event` of `main.go`. -/
structure Event where
  ID : String
  Timestamp : String
  Action : String
  Target : Target
deriving DecidableEq, Repr

/-- The struct `Notification` of `main.go`. -/
structure Notification where
  Events : List Event
deriving DecidableEq, Repr

/-- The package-level variable `config`. -/
structure Config where
  HTTPServerAddress : String
  RegistryAddress : String
  OpenAIKey : String
deriving DecidableEq, Repr

/-- The client that `remote.NewRegistry` returns. -/
structure Registry where
  reference : String
  PlainHTTP : Bool
deriving DecidableEq, Repr

/-- The handle that `reg.Repository` returns. -/
structure Repository where
  registry : String
  name : String
  PlainHTTP : Bool
deriving DecidableEq, Repr

/-- The request that `GetDescriptionFromOpenAI` sends. -/
structure HttpRequest where
  method : String
  url : String
  header : List (String × String)
  body : String
deriving DecidableEq, Repr

/-- The response of `client.Do`; `body` is the result of `io.ReadAll(resp.Body)`,
`none` when the read fails. -/
structure HttpResponse where
  StatusCode : Nat
  body : Option Bytes
deriving DecidableEq, Repr

/-- The field `Message` of one element of `OpenAIPayload.Choices`. -/
structure Message where
  Role : String
  Content : String
deriving DecidableEq, Repr

/-- One element of `OpenAIPayload.Choices`. -/
structure Choice where
  Message : Message
deriving DecidableEq, Repr

/-- The local type `OpenAIPayload` of `GetDescriptionFromOpenAI`. -/
structure OpenAIPayload where
  Choices : List Choice
deriving DecidableEq, Repr

/-- The inbound request: `body` is the result of `io.ReadAll(r.Body)`, `none` when
the read fails. -/
structure Request where
  body : Option Bytes
deriving DecidableEq, Repr

/-! ## Go maps -/

/-- The Go expression `m[k]` on a possibly nil map: the zero value when the key is
absent. -/
def mapIndex (m : Option Annotations) (k : String) : String :=
  match m with
  | none => ""
  | some l => (l.lookup k).getD ""

/-- The Go expression `v, ok := m[k]` on a possibly nil map. -/
def mapGet (m : Option Annotations) (k : String) : Option String :=
  match m with
  | none => none
  | some l => l.lookup k

/-- The Go statement `m[k] = v` on a map that is not nil. -/
def mapSet (l : Annotations) (k v : String) : Annotations :=
  (k, v) :: l.filter (fun p => !(p.1 == k))

/-- The Go statement `delete(m, k)` on a map that is not nil. -/
def mapDelete (l : Annotations) (k : String) : Annotations :=
  l.filter (fun p => !(p.1 == k))

/-! ## Collaborators and effects -/

/-- The external collaborators over a world state `σ`. -/
structure Env (σ : Type) where
  /-- The call `remote.NewRegistry(name)`: it parses the address only. -/
  newRegistry : String → Option Registry
  /-- The call `json.Unmarshal(body, &payload)` on a `Notification`. -/
  unmarshalNotification : Bytes → Option Notification
  /-- The call `reg.Repository(ctx, name)`. -/
  repository : σ → Registry → String → Option Repository × σ
  /-- The call `repo.FetchReference(ctx, digest)`; the value is the reader. -/
  fetchReference : σ → Repository → String → Option Bytes × σ
  /-- The call `json.NewDecoder(reader).Decode(&manifest)`. -/
  decodeManifest : σ → Bytes → Option Manifest × σ
  /-- The call `repo.Fetch(ctx, layer)`; the value is the reader. -/
  fetch : σ → Repository → Descriptor → Option Bytes × σ
  /-- The call `content.ReadAll(rs, layer)`. -/
  readAll : σ → Bytes → Descriptor → Option Bytes × σ
  /-- The call `json.Marshal(manifest)`. -/
  marshal : Manifest → Option Bytes
  /-- The call `oras.PushBytes(ctx, repo, mediaType, mjson)`. -/
  pushBytes : σ → Repository → String → Bytes → Option Descriptor × σ
  /-- The call `repo.Tag(ctx, desc, name)`; `true` is a nil error. -/
  tag : σ → Repository → Descriptor → String → Bool × σ
  /-- The call `http.NewRequest(method, url, body)`. -/
  newRequest : String → String → String → Option HttpRequest
  /-- The call `client.Do(req)`, with the 30 second timeout of the client. -/
  httpDo : σ → HttpRequest → Option HttpResponse × σ
  /-- The call `json.Unmarshal(bs, &p)` on an `OpenAIPayload`. -/
  unmarshalOpenAI : Bytes → Option OpenAIPayload

/-- One call to a collaborator, with its arguments.  A push also records the
manifest value whose serialisation is pushed and the descriptor that the call
returned (`none` when it failed). -/
inductive Effect where
  | repository (name : String)
  | fetchReference (repo : Repository) (digest : String)
  | fetch (repo : Repository) (layer : Descriptor)
  | describe (image : Bytes)
  | httpDo (req : HttpRequest)
  | push (repo : Repository) (mediaType : String) (manifest : Manifest) (mjson : Bytes)
      (result : Option Descriptor)
  | tag (repo : Repository) (desc : Descriptor) (name : String)
deriving DecidableEq, Repr

/-- The outcome of a call to a Go function that may panic. -/
inductive Call (α : Type) where
  | returns (v : α)
  | panics (msg : String)
deriving DecidableEq, Repr

/-! ## `GetDescriptionFromOpenAI` -/

/-- The alphabet of `base64.StdEncoding`. -/
def encodeStd : List Char :=
  "ABCDEFGHIJKLMNOPQRSTUVWXYZabcdefghijklmnopqrstuvwxyz0123456789+/".toList

/-- The character of a six-bit value. -/
def encodeChar (n : Nat) : Char := encodeStd.getD (n % 64) 'A'

/-- The padded encoding `base64.StdEncoding.EncodeToString`, as a list of characters. -/
def encodeChars : Bytes → List Char
  | [] => []
  | [a] =>
    let a := a % 256
    [encodeChar (a / 4), encodeChar (a % 4 * 16), '=', '=']
  | [a, b] =>
    let a := a % 256
    let b := b % 256
    [encodeChar (a / 4), encodeChar (a % 4 * 16 + b / 16), encodeChar (b % 16 * 4), '=']
  | a :: b :: c :: rest =>
    let a := a % 256
    let b := b % 256
    let c := c % 256
    encodeChar (a / 4) :: encodeChar (a % 4 * 16 + b / 16) ::
      encodeChar (b % 16 * 4 + c / 64) :: encodeChar (c % 64) :: encodeChars rest

/-- The call `base64.StdEncoding.EncodeToString(src)`. -/
def EncodeToString (src : Bytes) : String := String.mk (encodeChars src)

/-- The constant `template` up to its `%s` verb. -/
def templateHead : String :=
  "\n\x7b\n  \"model\": \"gpt-4o\",\n  \"messages\": [\n    \x7b\n      \"role\": \"user\",\n" ++
  "      \"content\": [\n        \x7b\n          \"type\": \"text\",\n" ++
  "          \"text\": \"Describe this image\"\n        \x7d,\n        \x7b\n" ++
  "          \"type\": \"image_url\",\n          \"image_url\": \x7b\n" ++
  "            \"url\": \"data:image/jpeg;base64,"

/-- The constant `template` after its `%s` verb. -/
def templateTail : String :=
  "\"\n          \x7d\n        \x7d\n      ]\n    \x7d\n  ],\n  \"max_tokens\": 300\n\x7d"

/-- The call `req.Header.Set(key, value)`. -/
def headerSet (h : List (String × String)) (key value : String) : List (String × String) :=
  (key, value) :: h.filter (fun p => !(p.1 == key))

/-- The function `GetDescriptionFromOpenAI`.  The value is the Go result pair
`(text, err)`, or a panic; with it come the next world state and the calls made. -/
def GetDescriptionFromOpenAI {σ : Type} (env : Env σ) (cfg : Config) (image : Bytes) (w : σ) :
    Call (String × Option String) × σ × List Effect :=
  let payload := templateHead ++ EncodeToString image ++ templateTail
  match env.newRequest "POST" "https://api.openai.com/v1/chat/completions" payload with
  | none => (.returns ("", some "failed to generate new request"), w, [])
  | some req =>
    let req := { req with
      header := headerSet (headerSet req.header "Content-Type" "application/json")
        "Authorization" ("Bearer " ++ cfg.OpenAIKey) }
    match env.httpDo w req with
    | (none, w1) => (.returns ("", some "failed http request"), w1, [.httpDo req])
    | (some resp, w1) =>
      if resp.StatusCode ≠ 200 then
        (.returns ("", some ("openai: failed to get process image - status: " ++
          toString resp.StatusCode)), w1, [.httpDo req])
      else
        match resp.body with
        | none => (.returns ("", some "failed to read payload body"), w1, [.httpDo req])
        | some bs =>
          match env.unmarshalOpenAI bs with
          | none => (.returns ("", some "failed to read payload body"), w1, [.httpDo req])
          | some p =>
            match p.Choices[0]? with
            | none =>
              (.panics "runtime error: index out of range [0] with length 0", w1, [.httpDo req])
            | some c => (.returns (c.Message.Content, none), w1, [.httpDo req])

/-! ## `NotificationHandler` -/

/-- The constant `NotifcationManifestDescription`. -/
def NotifcationManifestDescription : String := "notification.manifest.description"

/-- The key of the annotation that the handler writes on a layer. -/
def descriptionKey : String := "acme.description.openai"

/-- The statement `if m == nil then m = map[string]string{}`: the map afterwards. -/
def initMap (m : Option Annotations) : Annotations :=
  match m with
  | none => []
  | some l => l

/-- How one iteration of the loop over the layers ends: with `continue` before the
write-back (`skipped`), with the write-back `manifest.Layers[i] = layer`
(`written`), or with a panic. -/
inductive LayerOutcome where
  | skipped
  | written (layer : Descriptor)
  | panicked (msg : String)
deriving DecidableEq, Repr

/-- The body of the loop over the layers, for the loop variable `layer`. -/
def enrichLayer {σ : Type} (env : Env σ) (cfg : Config) (repo : Repository)
    (layer : Descriptor) (w : σ) : LayerOutcome × σ × List Effect :=
  match env.fetch w repo layer with
  | (none, w1) => (.skipped, w1, [.fetch repo layer])
  | (some rs, w1) =>
    match env.readAll w1 rs layer with
    | (none, w2) => (.skipped, w2, [.fetch repo layer])
    | (some bs, w2) =>
      let annotations := initMap layer.annotations
      match GetDescriptionFromOpenAI env cfg bs w2 with
      | (.panics msg, w3, t) => (.panicked msg, w3, .fetch repo layer :: .describe bs :: t)
      | (.returns (_, some _), w3, t) => (.skipped, w3, .fetch repo layer :: .describe bs :: t)
      | (.returns (description, none), w3, t) =>
        (.written { layer with annotations := some (mapSet annotations descriptionKey description) },
          w3, .fetch repo layer :: .describe bs :: t)

/-- The state of the loop over the layers: the slice `manifest.Layers`, the world
and the calls made so far, or a panic. -/
inductive Loop (σ : Type) where
  | running (layers : List Descriptor) (w : σ) (t : List Effect)
  | panicked (msg : String) (w : σ) (t : List Effect)

/-- The world of a loop state. -/
def Loop.world {σ : Type} : Loop σ → σ
  | .running _ w _ => w
  | .panicked _ w _ => w

/-- The calls made up to a loop state. -/
def Loop.trace {σ : Type} : Loop σ → List Effect
  | .running _ _ t => t
  | .panicked _ _ t => t

/-- The loop `for i, layer := range manifest.Layers` after its first `k` iterations,
started on the slice `layers` in the world `w`.  Iteration `k` reads element `k` of
the slice as it is then, and its write-back stores into element `k`. -/
def layersAfter {σ : Type} (env : Env σ) (cfg : Config) (repo : Repository)
    (layers : List Descriptor) (w : σ) : Nat → Loop σ
  | 0 => .running layers w []
  | k + 1 =>
    match layersAfter env cfg repo layers w k with
    | .panicked msg w1 t => .panicked msg w1 t
    | .running ls w1 t =>
      match ls[k]? with
      | none => .running ls w1 t
      | some layer =>
        match enrichLayer env cfg repo layer w1 with
        | (.skipped, w2, t2) => .running ls w2 (t ++ t2)
        | (.written layer, w2, t2) => .running (ls.set k layer) w2 (t ++ t2)
        | (.panicked msg, w2, t2) => .panicked msg w2 (t ++ t2)

/-- How the body of the loop over the events ends: at its end or with `continue`
(`next`), with `return`, or with a panic. -/
inductive Flow where
  | next
  | returned
  | panicked (msg : String)
deriving DecidableEq, Repr

/-- The statement `delete(m, k)` on a possibly nil map. -/
def deleteKey (m : Option Annotations) (k : String) : Option Annotations :=
  match m with
  | none => none
  | some l => some (mapDelete l k)

/-- The body of the loop over the events, for the loop variable `v`. -/
def processEvent {σ : Type} (env : Env σ) (cfg : Config) (reg : Registry) (v : Event) (w : σ) :
    Flow × σ × List Effect :=
  match env.repository w reg v.Target.Repository with
  | (none, w1) => (.next, w1, [.repository v.Target.Repository])
  | (some repo, w1) =>
    match env.fetchReference w1 repo v.Target.Digest with
    | (none, w2) =>
      (.next, w2, [.repository v.Target.Repository, .fetchReference repo v.Target.Digest])
    | (some reader, w2) =>
      match env.decodeManifest w2 reader with
      | (none, w3) =>
        (.next, w3, [.repository v.Target.Repository, .fetchReference repo v.Target.Digest])
      | (some manifest, w3) =>
        let manifest := { manifest with annotations := some (initMap manifest.annotations) }
        if mapIndex manifest.annotations NotifcationManifestDescription ≠ "true" then
          (.next, w3, [.repository v.Target.Repository, .fetchReference repo v.Target.Digest])
        else
          match layersAfter env cfg repo manifest.layers w3 manifest.layers.length with
          | .panicked msg w4 t =>
            (.panicked msg, w4,
              .repository v.Target.Repository :: .fetchReference repo v.Target.Digest :: t)
          | .running layers w4 t =>
            let manifest := { manifest with
              layers := layers
              annotations := deleteKey manifest.annotations NotifcationManifestDescription }
            match env.marshal manifest with
            | none =>
              (.next, w4,
                .repository v.Target.Repository :: .fetchReference repo v.Target.Digest :: t)
            | some mjson =>
              match env.pushBytes w4 repo manifest.mediaType mjson with
              | (none, w5) =>
                (.next, w5,
                  .repository v.Target.Repository :: .fetchReference repo v.Target.Digest ::
                    (t ++ [.push repo manifest.mediaType manifest mjson none]))
              | (some modifiedManifest, w5) =>
                match env.tag w5 repo modifiedManifest "latest" with
                | (true, w6) =>
                  (.next, w6,
                    .repository v.Target.Repository :: .fetchReference repo v.Target.Digest ::
                      (t ++ [.push repo manifest.mediaType manifest mjson (some modifiedManifest),
                        .tag repo modifiedManifest "latest"]))
                | (false, w6) =>
                  (.returned, w6,
                    .repository v.Target.Repository :: .fetchReference repo v.Target.Digest ::
                      (t ++ [.push repo manifest.mediaType manifest mjson (some modifiedManifest),
                        .tag repo modifiedManifest "latest"]))

/-- The loop `for _, v := range payload.Events`. -/
def eventsLoop {σ : Type} (env : Env σ) (cfg : Config) (reg : Registry) :
    List Event → σ → Flow × σ × List Effect
  | [], w => (.next, w, [])
  | v :: vs, w =>
    match processEvent env cfg reg v w with
    | (.next, w1, t) =>
      match eventsLoop env cfg reg vs w1 with
      | (f, w2, t2) => (f, w2, t ++ t2)
    | (.returned, w1, t) => (.returned, w1, t)
    | (.panicked msg, w1, t) => (.panicked msg, w1, t)

/-- What one run of the handler leaves behind: the argument of its call to
`rw.WriteHeader` (`none` when it made none), the panic it ended with (`none` when
it returned), the world, and the calls it made to the collaborators. -/
structure Result (σ : Type) where
  wroteHeader : Option Nat
  panic : Option String
  world : σ
  trace : List Effect

/-- The function `NotificationHandler`. -/
def NotificationHandler {σ : Type} (env : Env σ) (cfg : Config) (r : Request) (w : σ) :
    Result σ :=
  match env.newRegistry cfg.RegistryAddress with
  | none => ⟨none, some "remote.NewRegistry", w, []⟩
  | some reg =>
    let reg := { reg with PlainHTTP := true }
    match r.body with
    | none => ⟨some 500, none, w, []⟩
    | some body =>
      match env.unmarshalNotification body with
      | none => ⟨some 400, none, w, []⟩
      | some payload =>
        match eventsLoop env cfg reg payload.Events w with
        | (.next, w1, t) => ⟨some 200, none, w1, t⟩
        | (.returned, w1, t) => ⟨none, none, w1, t⟩
        | (.panicked msg, w1, t) => ⟨none, some msg, w1, t⟩

/-- The function `HealthHandler`: the argument of its call to `rw.WriteHeader`. -/
def HealthHandler : Nat := 200

/-- The status line that `net/http` sends for a run of a handler: the status the
handler wrote, 200 when the handler returned without writing one, and none at all
when the handler panicked (the server recovers the panic and drops the
connection). -/
def statusSent {σ : Type} (r : Result σ) : Option Nat :=
  match r.panic with
  | some _ => none
  | none => some (r.wroteHeader.getD 200)

/-! ## Reading a list of calls -/

/-- The calls to `oras.PushBytes` in a list of calls: repository, media type,
manifest, bytes and returned descriptor of each. -/
def pushCalls (t : List Effect) :
    List (Repository × String × Manifest × Bytes × Option Descriptor) :=
  t.filterMap fun e =>
    match e with
    | .push repo mediaType manifest mjson result => some (repo, mediaType, manifest, mjson, result)
    | _ => none

/-- The calls to `repo.Tag` in a list of calls. -/
def tagCalls (t : List Effect) : List (Repository × Descriptor × String) :=
  t.filterMap fun e =>
    match e with
    | .tag repo desc name => some (repo, desc, name)
    | _ => none

/-- The calls to `repo.Fetch` in a list of calls. -/
def layerFetches (t : List Effect) : List (Repository × Descriptor) :=
  t.filterMap fun e =>
    match e with
    | .fetch repo layer => some (repo, layer)
    | _ => none

/-- The calls to `GetDescriptionFromOpenAI` in a list of calls. -/
def describeCalls (t : List Effect) : List Bytes :=
  t.filterMap fun e =>
    match e with
    | .describe image => some image
    | _ => none

/-- The calls to `reg.Repository` in a list of calls. -/
def repositoryCalls (t : List Effect) : List String :=
  t.filterMap fun e =>
    match e with
    | .repository name => some name
    | _ => none

/-! ## Concrete worlds

A `Scenario` fixes what the collaborators answer.  Its world state counts the
requests sent to the description service so far. -/

/-- The answers of the collaborators in a concrete world. -/
structure Scenario where
  /-- The batch that a request body decodes to. -/
  batches : Bytes → Option Notification
  /-- The manifest stored under a digest. -/
  manifests : String → Option Manifest
  /-- The bytes of a layer. -/
  blobs : Descriptor → Option Bytes
  /-- The answer to the request number `n` (from 0) to the description service. -/
  respond : Nat → Option HttpResponse
  /-- The decoding of a body of the description service. -/
  completions : Bytes → Option OpenAIPayload
  /-- Whether a push succeeds. -/
  pushOk : Bool
  /-- Whether a tag update succeeds. -/
  tagOk : Bool

/-- The bytes of a string. -/
def bytesOf (s : String) : Bytes := s.toList.map Char.toNat

/-- The string of a byte string. -/
def stringOf (b : Bytes) : String := String.mk (b.map Char.ofNat)

/-- The collaborators of a scenario. -/
def Scenario.env (sc : Scenario) : Env Nat where
  newRegistry := fun name => some ⟨name, false⟩
  unmarshalNotification := sc.batches
  repository := fun w reg name => (some ⟨reg.reference, name, reg.PlainHTTP⟩, w)
  fetchReference := fun w _ digest =>
    match sc.manifests digest with
    | none => (none, w)
    | some _ => (some (bytesOf digest), w)
  decodeManifest := fun w reader => (sc.manifests (stringOf reader), w)
  fetch := fun w _ layer => (sc.blobs layer, w)
  readAll := fun w rs _ => (some rs, w)
  marshal := fun m => some (bytesOf m.mediaType ++ [m.layers.length])
  pushBytes := fun w _ mediaType mjson =>
    if sc.pushOk then (some ⟨mediaType, "sha256:new", mjson.length, [], none, [], none, ""⟩, w)
    else (none, w)
  tag := fun w _ _ _ => (sc.tagOk, w)
  newRequest := fun method url body => some ⟨method, url, [], body⟩
  httpDo := fun w _ => (sc.respond w, w + 1)
  unmarshalOpenAI := sc.completions

/-- A configuration. -/
def demoConfig : Config := ⟨":8888", "registry:5000", "sk-proj-no-key-set-env"⟩

/-- The registry client of `demoConfig`, as the handler uses it. -/
def demoRegistry : Registry := ⟨"registry:5000", true⟩

/-- A layer without annotations. -/
def plainLayer (digest : String) (size : Int) : Descriptor :=
  ⟨"image/jpeg", digest, size, [], none, [], none, ""⟩

/-- A manifest with the given annotations and layers. -/
def demoManifest (annotations : Option Annotations) (layers : List Descriptor) : Manifest :=
  ⟨2, "application/vnd.oci.image.manifest.v1+json", "",
    ⟨"application/vnd.oci.empty.v1+json", "sha256:cfg", 2, [], none, [], none, ""⟩,
    layers, none, annotations⟩

/-- An event for the manifest `digest` of the repository `repository`. -/
def demoEvent (repository digest : String) : Event :=
  ⟨"id", "2024-01-01T00:00:00Z", "push",
    ⟨"application/vnd.oci.image.manifest.v1+json", 1, digest, repository, "", "v1"⟩⟩

/-- The first layer of the end-to-end scenario; it already carries a description
and one more annotation. -/
def carLayer0 : Descriptor :=
  { plainLayer "sha256:l0" 3 with
    annotations := some [("acme.description.openai", "old"), ("org.title", "a.jpg")] }

/-- The second layer of the end-to-end scenario. -/
def carLayer1 : Descriptor := plainLayer "sha256:l1" 4

/-- The two layers of the end-to-end scenario. -/
def carLayers : List Descriptor := [carLayer0, carLayer1]

/-- The manifest of the end-to-end scenario. -/
def carManifest : Manifest :=
  demoManifest (some [("notification.manifest.description", "true"), ("org.author", "me")])
    carLayers

/-- The end-to-end scenario: the service describes the first layer as
"a red car" and times out on the second. -/
def carScenario : Scenario where
  batches := fun body =>
    if body = [1] then some ⟨[demoEvent "app" "sha256:abc"]⟩
    else if body = [0] then some ⟨[]⟩
    else none
  manifests := fun digest => if digest = "sha256:abc" then some carManifest else none
  blobs := fun layer => some [layer.size.toNat]
  respond := fun n => if n = 0 then some ⟨200, some [7]⟩ else none
  completions := fun bs => if bs = [7] then some ⟨[⟨⟨"assistant", "a red car"⟩⟩]⟩ else none
  pushOk := true
  tagOk := true


/-! ## Definitions used in the statements, and more concrete worlds -/

/-- The layer with the description `text` written on it. -/
def annotate (layer : Descriptor) (text : String) : Descriptor :=
  { layer with annotations := some (mapSet (initMap layer.annotations) descriptionKey text) }

/-- The element of `manifest.Layers` after an iteration on `layer` that ended with
the outcome `o`. -/
def layerAfter (o : LayerOutcome) (layer : Descriptor) : Descriptor :=
  match o with
  | .written l => l
  | _ => layer

/-- The manifest that the handler marshals for an opted-in manifest whose layers
the loop left as `ls`. -/
def rewritten (manifest : Manifest) (ls : List Descriptor) : Manifest :=
  { manifest with
    layers := ls
    annotations := some (mapDelete (initMap manifest.annotations) NotifcationManifestDescription) }


/-- A manifest that carries the marker with the value "True". -/
def optOutManifest : Manifest :=
  demoManifest (some [("notification.manifest.description", "True")]) carLayers

/-- A scenario whose manifest carries the marker with the value "True". -/
def optOutScenario : Scenario :=
  { carScenario with
    manifests := fun digest => if digest = "sha256:abc" then some optOutManifest else none }

/-- The event of the end-to-end scenario. -/
def carEvent : Event := demoEvent "app" "sha256:abc"

/-- A scenario with a batch of two events in which every tag update fails. -/
def tagFailScenario : Scenario :=
  { carScenario with
    batches := fun body =>
      if body = [2] then some ⟨[demoEvent "app" "sha256:abc", demoEvent "other" "sha256:abc"]⟩
      else none
    tagOk := false }

/-- The scenario `tagFailScenario` with tag updates that succeed. -/
def tagOkScenario : Scenario := { tagFailScenario with tagOk := true }

/-- A scenario in which the description service answers 200 with a body that
decodes to an empty list of choices. -/
def emptyChoicesScenario : Scenario :=
  { carScenario with
    respond := fun _ => some ⟨200, some [9]⟩
    completions := fun bs => if bs = [9] then some ⟨[]⟩ else none }

/-- The end-to-end scenario with pushes that fail. -/
def pushFailScenario : Scenario := { carScenario with pushOk := false }

/-- The repository handle of the end-to-end scenario. -/
def appRepository : Repository := ⟨"registry:5000", "app", true⟩

/-! ## Lemmas on Go maps -/

theorem lookup_filter_self (l : Annotations) (k : String) :
    List.lookup k (l.filter (fun p => !(p.1 == k))) = none := by
  induction l with
  | nil => rfl
  | cons p l ih =>
    obtain ⟨a, b⟩ := p
    by_cases h : a = k
    · simp [List.filter_cons, h, ih]
    · have hk : (k == a) = false := by simpa using fun e => h e.symm
      simp [List.filter_cons, h, List.lookup_cons, hk, ih]

theorem mapIndex_eq_getD (m : Option Annotations) (k : String) :
    mapIndex m k = (mapGet m k).getD "" := by
  cases m <;> rfl

theorem mapIndex_eq_true_iff (m : Option Annotations) (k : String) :
    mapIndex m k = "true" ↔ mapGet m k = some "true" := by
  rw [mapIndex_eq_getD]
  cases h : mapGet m k with
  | none => simp
  | some v => simp

theorem mapGet_initMap (m : Option Annotations) (k : String) :
    mapGet (some (initMap m)) k = mapGet m k := by
  cases m <;> rfl

theorem mapGet_mapSet_self (l : Annotations) (k v : String) :
    mapGet (some (mapSet l k v)) k = some v := by
  simp [mapGet, mapSet, List.lookup_cons]

theorem mapGet_deleteKey_self (m : Option Annotations) (k : String) :
    mapGet (deleteKey m k) k = none := by
  cases m with
  | none => rfl
  | some l => exact lookup_filter_self l k

theorem pushCalls_append (s t : List Effect) : pushCalls (s ++ t) = pushCalls s ++ pushCalls t := by
  simp [pushCalls, List.filterMap_append]

theorem tagCalls_append (s t : List Effect) : tagCalls (s ++ t) = tagCalls s ++ tagCalls t := by
  simp [tagCalls, List.filterMap_append]

theorem layerFetches_append (s t : List Effect) :
    layerFetches (s ++ t) = layerFetches s ++ layerFetches t := by
  simp [layerFetches, List.filterMap_append]

theorem describeCalls_append (s t : List Effect) :
    describeCalls (s ++ t) = describeCalls s ++ describeCalls t := by
  simp [describeCalls, List.filterMap_append]

theorem repositoryCalls_append (s t : List Effect) :
    repositoryCalls (s ++ t) = repositoryCalls s ++ repositoryCalls t := by
  simp [repositoryCalls, List.filterMap_append]

/-! ## Lemmas on `GetDescriptionFromOpenAI` -/

/-- The function sends at most one request and makes no other call. -/
theorem GetDescriptionFromOpenAI_trace {σ : Type} (env : Env σ) (cfg : Config) (image : Bytes)
    (w : σ) :
    (GetDescriptionFromOpenAI env cfg image w).2.2 = [] ∨
      ∃ req, (GetDescriptionFromOpenAI env cfg image w).2.2 = [.httpDo req] := by
  unfold GetDescriptionFromOpenAI
  dsimp only
  split
  · exact Or.inl rfl
  · rename_i req _
    right
    refine ⟨{ req with
      header := headerSet (headerSet req.header "Content-Type" "application/json")
        "Authorization" ("Bearer " ++ cfg.OpenAIKey) }, ?_⟩
    repeat' split
    all_goals rfl

/-- The description call panics when the service answers 200 with a body that
decodes to an empty list of choices. -/
theorem GetDescriptionFromOpenAI_empty_choices {σ : Type} (env : Env σ) (cfg : Config)
    (image : Bytes) (w w1 : σ) (req : HttpRequest) (bs : Bytes)
    (hreq : env.newRequest "POST" "https://api.openai.com/v1/chat/completions"
      (templateHead ++ EncodeToString image ++ templateTail) = some req)
    (hdo : env.httpDo w { req with
      header := headerSet (headerSet req.header "Content-Type" "application/json")
        "Authorization" ("Bearer " ++ cfg.OpenAIKey) } = (some ⟨200, some bs⟩, w1))
    (hbody : env.unmarshalOpenAI bs = some ⟨[]⟩) :
    (GetDescriptionFromOpenAI env cfg image w).1 =
      .panics "runtime error: index out of range [0] with length 0" := by
  simp [GetDescriptionFromOpenAI, hreq, hdo, hbody]

/-- Every description call returns when no body of the service decodes to an
empty list of choices. -/
theorem GetDescriptionFromOpenAI_returns {σ : Type} (env : Env σ) (cfg : Config)
    (h : ∀ bs p, env.unmarshalOpenAI bs = some p → p.Choices ≠ []) :
    ∀ image w, ∃ r, (GetDescriptionFromOpenAI env cfg image w).1 = .returns r := by
  intro image w
  unfold GetDescriptionFromOpenAI
  dsimp only
  split
  · exact ⟨_, rfl⟩
  · split
    · exact ⟨_, rfl⟩
    · split
      · exact ⟨_, rfl⟩
      · split
        · exact ⟨_, rfl⟩
        · split
          · exact ⟨_, rfl⟩
          · rename_i q hq
            split
            · rename_i hnone
              have hne := h _ q hq
              have hlen : q.Choices.length ≤ 0 := List.getElem?_eq_none_iff.mp hnone
              exact absurd (List.length_eq_zero.mp (Nat.le_zero.mp hlen)) hne
            · exact ⟨_, rfl⟩

/-! ## Lemmas on the loop over the layers -/

/-- An iteration fetches its layer once and makes no push, tag or repository call. -/
theorem enrichLayer_trace {σ : Type} (env : Env σ) (cfg : Config) (repo : Repository)
    (layer : Descriptor) (w : σ) :
    layerFetches (enrichLayer env cfg repo layer w).2.2 = [(repo, layer)] ∧
      pushCalls (enrichLayer env cfg repo layer w).2.2 = [] ∧
      tagCalls (enrichLayer env cfg repo layer w).2.2 = [] ∧
      repositoryCalls (enrichLayer env cfg repo layer w).2.2 = [] := by
  rcases hf : env.fetch w repo layer with ⟨_ | rs, wa⟩
  · simp [enrichLayer, hf, layerFetches, pushCalls, tagCalls, repositoryCalls]
  · rcases hr : env.readAll wa rs layer with ⟨_ | bs, wb⟩
    · simp [enrichLayer, hf, hr, layerFetches, pushCalls, tagCalls, repositoryCalls]
    · have ht := GetDescriptionFromOpenAI_trace env cfg bs wb
      rcases hG : GetDescriptionFromOpenAI env cfg bs wb with ⟨c, w3, t⟩
      rw [hG] at ht
      have ht2 : layerFetches t = [] ∧ pushCalls t = [] ∧ tagCalls t = [] ∧
          repositoryCalls t = [] := by
        rcases ht with h | ⟨req, h⟩ <;> simp only at h <;> subst h <;>
          simp [layerFetches, pushCalls, tagCalls, repositoryCalls]
      obtain ⟨h1, h2, h3, h4⟩ := ht2
      have e1 : ∀ x y, layerFetches (Effect.fetch repo layer :: Effect.describe x :: y) =
          (repo, layer) :: layerFetches y := fun _ _ => rfl
      have e2 : ∀ x y, pushCalls (Effect.fetch repo layer :: Effect.describe x :: y) =
          pushCalls y := fun _ _ => rfl
      have e3 : ∀ x y, tagCalls (Effect.fetch repo layer :: Effect.describe x :: y) =
          tagCalls y := fun _ _ => rfl
      have e4 : ∀ x y, repositoryCalls (Effect.fetch repo layer :: Effect.describe x :: y) =
          repositoryCalls y := fun _ _ => rfl
      rcases c with ⟨text, _ | e⟩ | msg <;>
        simp [enrichLayer, hf, hr, hG, e1, e2, e3, e4, h1, h2, h3, h4]

/-- The iteration when fetch, read and description succeed. -/
theorem enrichLayer_success {σ : Type} (env : Env σ) (cfg : Config) (repo : Repository)
    (layer : Descriptor) (w : σ) (rs bs : Bytes) (wa wb : σ) (text : String)
    (hf : env.fetch w repo layer = (some rs, wa))
    (hr : env.readAll wa rs layer = (some bs, wb))
    (hd : (GetDescriptionFromOpenAI env cfg bs wb).1 = .returns (text, none)) :
    (enrichLayer env cfg repo layer w).1 = .written (annotate layer text) := by
  rcases hG : GetDescriptionFromOpenAI env cfg bs wb with ⟨c, w3, t⟩
  rw [hG] at hd
  simp only at hd
  subst hd
  simp [enrichLayer, hf, hr, hG, annotate]

/-- The iteration when the fetch fails. -/
theorem enrichLayer_fetch_failed {σ : Type} (env : Env σ) (cfg : Config) (repo : Repository)
    (layer : Descriptor) (w : σ) (hf : (env.fetch w repo layer).1 = none) :
    (enrichLayer env cfg repo layer w).1 = .skipped := by
  rcases hf2 : env.fetch w repo layer with ⟨_ | rs, wa⟩
  · simp [enrichLayer, hf2]
  · simp [hf2] at hf

/-- The iteration when the read of the fetched layer fails. -/
theorem enrichLayer_read_failed {σ : Type} (env : Env σ) (cfg : Config) (repo : Repository)
    (layer : Descriptor) (w : σ) (rs : Bytes) (wa : σ)
    (hf : env.fetch w repo layer = (some rs, wa)) (hr : (env.readAll wa rs layer).1 = none) :
    (enrichLayer env cfg repo layer w).1 = .skipped := by
  rcases hr2 : env.readAll wa rs layer with ⟨_ | bs, wb⟩
  · simp [enrichLayer, hf, hr2]
  · simp [hr2] at hr

/-- The iteration when the description call returns an error. -/
theorem enrichLayer_describe_failed {σ : Type} (env : Env σ) (cfg : Config) (repo : Repository)
    (layer : Descriptor) (w : σ) (rs bs : Bytes) (wa wb : σ) (text e : String)
    (hf : env.fetch w repo layer = (some rs, wa))
    (hr : env.readAll wa rs layer = (some bs, wb))
    (hd : (GetDescriptionFromOpenAI env cfg bs wb).1 = .returns (text, some e)) :
    (enrichLayer env cfg repo layer w).1 = .skipped := by
  rcases hG : GetDescriptionFromOpenAI env cfg bs wb with ⟨c, w3, t⟩
  rw [hG] at hd
  simp only at hd
  subst hd
  simp [enrichLayer, hf, hr, hG]

/-- An iteration does not panic when the description call returns. -/
theorem enrichLayer_no_panic {σ : Type} (env : Env σ) (cfg : Config) (repo : Repository)
    (layer : Descriptor) (w : σ)
    (hdescribe : ∀ image w, ∃ r, (GetDescriptionFromOpenAI env cfg image w).1 = .returns r)
    (msg : String) : (enrichLayer env cfg repo layer w).1 ≠ .panicked msg := by
  rcases hf : env.fetch w repo layer with ⟨_ | rs, wa⟩
  · simp [enrichLayer, hf]
  · rcases hr : env.readAll wa rs layer with ⟨_ | bs, wb⟩
    · simp [enrichLayer, hf, hr]
    · obtain ⟨r, hr2⟩ := hdescribe bs wb
      rcases hG : GetDescriptionFromOpenAI env cfg bs wb with ⟨c, w3, t⟩
      rw [hG] at hr2
      simp only at hr2
      subst hr2
      rcases r with ⟨text, _ | e⟩ <;> simp [enrichLayer, hf, hr, hG]


/-- The invariant of the loop over the layers after `k` iterations that did not
panic: the slice keeps its length, the elements from `k` on are untouched, each
element before `k` is what its own iteration left, every layer before `k` was
fetched once, in order, and nothing was pushed or tagged. -/
theorem layersAfter_inv {σ : Type} (env : Env σ) (cfg : Config) (repo : Repository)
    (layers : List Descriptor) (w0 : σ) :
    ∀ (k : Nat) (ls : List Descriptor) (w : σ) (t : List Effect),
      layersAfter env cfg repo layers w0 k = .running ls w t →
      ls.length = layers.length ∧
      (∀ j, k ≤ j → ls[j]? = layers[j]?) ∧
      (∀ i, i < k → ∀ layer, layers[i]? = some layer →
        ls[i]? = some (layerAfter
          (enrichLayer env cfg repo layer (layersAfter env cfg repo layers w0 i).world).1 layer)) ∧
      layerFetches t = (layers.take k).map (fun l => (repo, l)) ∧
      pushCalls t = [] ∧ tagCalls t = [] ∧ repositoryCalls t = [] := by
  intro k
  induction k with
  | zero =>
    intro ls w t h
    simp only [layersAfter, Loop.running.injEq] at h
    obtain ⟨rfl, rfl, rfl⟩ := h
    refine ⟨rfl, fun _ _ => rfl, ?_, rfl, rfl, rfl, rfl⟩
    intro i hi
    exact absurd hi (Nat.not_lt_zero i)
  | succ k ih =>
    intro ls w t h
    simp only [layersAfter] at h
    cases hk : layersAfter env cfg repo layers w0 k with
    | panicked msg w1 t0 => simp [hk] at h
    | running ls0 w1 t0 =>
      obtain ⟨hlen, hrest, hdone, hfetch, hpush, htag, hrepo⟩ := ih ls0 w1 t0 hk
      have hworld : (layersAfter env cfg repo layers w0 k).world = w1 := by rw [hk]; rfl
      cases hl : ls0[k]? with
      | none =>
        simp only [hk, hl, Loop.running.injEq] at h
        obtain ⟨rfl, rfl, rfl⟩ := h
        have hge : layers.length ≤ k := by
          rw [← hlen]
          exact List.getElem?_eq_none_iff.mp hl
        refine ⟨hlen, fun j hj => hrest j (Nat.le_of_succ_le hj), ?_, ?_, hpush, htag, hrepo⟩
        · intro i hi layer hlayer
          rcases Nat.lt_succ_iff_lt_or_eq.mp hi with hlt | heq
          · exact hdone i hlt layer hlayer
          · subst heq
            rw [List.getElem?_eq_none hge] at hlayer
            exact absurd hlayer (by simp)
        · rw [hfetch, List.take_of_length_le hge,
            List.take_of_length_le (Nat.le_succ_of_le hge)]
      | some layer =>
        have hlayer0 : layers[k]? = some layer := by rw [← hrest k (Nat.le_refl k)]; exact hl
        have htr := enrichLayer_trace env cfg repo layer w1
        rcases hE : enrichLayer env cfg repo layer w1 with ⟨o, w2, t2⟩
        rw [hE] at htr
        obtain ⟨hf2, hp2, ht2, hr2⟩ := htr
        have hfetch2 : layerFetches (t0 ++ t2) =
            (layers.take (k + 1)).map (fun l => (repo, l)) := by
          rw [layerFetches_append, hfetch, hf2, List.take_succ, hlayer0]
          simp
        have hpush2 : pushCalls (t0 ++ t2) = [] := by rw [pushCalls_append, hpush, hp2]; rfl
        have htag2 : tagCalls (t0 ++ t2) = [] := by rw [tagCalls_append, htag, ht2]; rfl
        have hrepo2 : repositoryCalls (t0 ++ t2) = [] := by
          rw [repositoryCalls_append, hrepo, hr2]; rfl
        cases o with
        | panicked msg => simp [hk, hl, hE] at h
        | skipped =>
          simp only [hk, hl, hE, Loop.running.injEq] at h
          obtain ⟨rfl, rfl, rfl⟩ := h
          refine ⟨hlen, fun j hj => hrest j (Nat.le_of_succ_le hj), ?_, hfetch2, hpush2, htag2,
            hrepo2⟩
          intro i hi layer2 hlayer2
          rcases Nat.lt_succ_iff_lt_or_eq.mp hi with hlt | heq
          · exact hdone i hlt layer2 hlayer2
          · subst heq
            rw [hlayer0] at hlayer2
            cases hlayer2
            rw [hworld, hE, hl]
            rfl
        | written l =>
          simp only [hk, hl, hE, Loop.running.injEq] at h
          obtain ⟨rfl, rfl, rfl⟩ := h
          refine ⟨by rw [List.length_set]; exact hlen, ?_, ?_, hfetch2, hpush2, htag2, hrepo2⟩
          · intro j hj
            rw [List.getElem?_set_ne (Nat.ne_of_lt (Nat.lt_of_succ_le hj))]
            exact hrest j (Nat.le_of_succ_le hj)
          · intro i hi layer2 hlayer2
            rcases Nat.lt_succ_iff_lt_or_eq.mp hi with hlt | heq
            · rw [List.getElem?_set_ne (Nat.ne_of_gt hlt)]
              exact hdone i hlt layer2 hlayer2
            · subst heq
              rw [hlayer0] at hlayer2
              cases hlayer2
              have hilt : i < ls0.length := by
                rcases List.getElem?_eq_some.mp hl with ⟨hh, _⟩
                exact hh
              rw [hworld, hE, List.getElem?_set_self hilt]
              rfl

/-- The loop over the layers does not panic when every description call returns. -/
theorem layersAfter_running {σ : Type} (env : Env σ) (cfg : Config) (repo : Repository)
    (layers : List Descriptor) (w0 : σ)
    (hdescribe : ∀ image w, ∃ r, (GetDescriptionFromOpenAI env cfg image w).1 = .returns r)
    (k : Nat) : ∃ ls w t, layersAfter env cfg repo layers w0 k = .running ls w t := by
  induction k with
  | zero => exact ⟨layers, w0, [], rfl⟩
  | succ k ih =>
    obtain ⟨ls, w, t, h⟩ := ih
    simp only [layersAfter, h]
    cases hl : ls[k]? with
    | none => exact ⟨ls, w, t, rfl⟩
    | some layer =>
      have hnp := enrichLayer_no_panic env cfg repo layer w hdescribe
      rcases hE : enrichLayer env cfg repo layer w with ⟨o, w2, t2⟩
      rw [hE] at hnp
      cases o with
      | skipped => exact ⟨ls, w2, t ++ t2, by simp only [hE]⟩
      | written l => exact ⟨ls.set k l, w2, t ++ t2, by simp only [hE]⟩
      | panicked msg => exact absurd rfl (hnp msg)


/-- The loop over the layers pushes nothing, tags nothing and resolves no
repository, whether it panics or not. -/
theorem layersAfter_quiet {σ : Type} (env : Env σ) (cfg : Config) (repo : Repository)
    (layers : List Descriptor) (w0 : σ) (k : Nat) :
    pushCalls (layersAfter env cfg repo layers w0 k).trace = [] ∧
      tagCalls (layersAfter env cfg repo layers w0 k).trace = [] ∧
      repositoryCalls (layersAfter env cfg repo layers w0 k).trace = [] := by
  induction k with
  | zero => exact ⟨rfl, rfl, rfl⟩
  | succ k ih =>
    simp only [layersAfter]
    cases hk : layersAfter env cfg repo layers w0 k with
    | panicked msg w1 t0 =>
      rw [hk] at ih
      exact ih
    | running ls0 w1 t0 =>
      rw [hk] at ih
      obtain ⟨hp, ht, hr⟩ := ih
      simp only [Loop.trace] at hp ht hr
      cases hl : ls0[k]? with
      | none =>
        simp only [hl, Loop.trace]
        exact ⟨hp, ht, hr⟩
      | some layer =>
        have htr := enrichLayer_trace env cfg repo layer w1
        rcases hE : enrichLayer env cfg repo layer w1 with ⟨o, w2, t2⟩
        rw [hE] at htr
        obtain ⟨_, hp2, ht2, hr2⟩ := htr
        simp only at hp2 ht2 hr2
        cases o <;>
          simp [hl, hE, Loop.trace, pushCalls_append, tagCalls_append, repositoryCalls_append, hp,
            ht, hr, hp2, ht2, hr2]

/-- The gate lets a manifest through exactly when its marker is "true". -/
theorem gate_iff (manifest : Manifest) :
    mapIndex (some (initMap manifest.annotations)) NotifcationManifestDescription = "true" ↔
      mapGet manifest.annotations NotifcationManifestDescription = some "true" := by
  rw [mapIndex_eq_true_iff, mapGet_initMap]

/-- The calls of an opted-in event whose loop over the layers ended without panic
and whose manifest was marshalled. -/
theorem processEvent_optIn {σ : Type} (env : Env σ) (cfg : Config) (reg : Registry) (v : Event)
    (w w1 w2 w3 w4 : σ) (repo : Repository) (reader : Bytes) (manifest : Manifest)
    (ls : List Descriptor) (t : List Effect) (mjson : Bytes)
    (hrepo : env.repository w reg v.Target.Repository = (some repo, w1))
    (hfetch : env.fetchReference w1 repo v.Target.Digest = (some reader, w2))
    (hdecode : env.decodeManifest w2 reader = (some manifest, w3))
    (hmarker : mapGet manifest.annotations NotifcationManifestDescription = some "true")
    (hloop : layersAfter env cfg repo manifest.layers w3 manifest.layers.length =
      .running ls w4 t)
    (hmarshal : env.marshal (rewritten manifest ls) = some mjson) :
    pushCalls (processEvent env cfg reg v w).2.2 =
        [(repo, manifest.mediaType, rewritten manifest ls, mjson,
          (env.pushBytes w4 repo manifest.mediaType mjson).1)] ∧
      layerFetches (processEvent env cfg reg v w).2.2 =
        manifest.layers.map (fun l => (repo, l)) := by
  obtain ⟨_, _, _, hf, hp, _, _⟩ :=
    layersAfter_inv env cfg repo manifest.layers w3 manifest.layers.length ls w4 t hloop
  rw [List.take_of_length_le (Nat.le_refl _)] at hf
  have hgate := (gate_iff manifest).mpr hmarker
  have hm : env.marshal
      { manifest with
        layers := ls
        annotations := deleteKey (some (initMap manifest.annotations))
          NotifcationManifestDescription } = some mjson := hmarshal
  have e1 : ∀ a b (y : List Effect),
      pushCalls (Effect.repository a :: Effect.fetchReference repo b :: y) = pushCalls y :=
    fun _ _ _ => rfl
  have e2 : ∀ a b (y : List Effect),
      layerFetches (Effect.repository a :: Effect.fetchReference repo b :: y) =
        layerFetches y := fun _ _ _ => rfl
  rcases hpush : env.pushBytes w4 repo manifest.mediaType mjson with ⟨_ | d, w5⟩
  · simp only [processEvent, hrepo, hfetch, hdecode, hgate, hloop, hm, hpush, ne_eq,
      not_true_eq_false, if_false, e1, e2, pushCalls_append, layerFetches_append, hf, hp]
    exact ⟨rfl, by simp [layerFetches]⟩
  · rcases htag : env.tag w5 repo d "latest" with ⟨_ | _, w6⟩ <;>
      simp only [processEvent, hrepo, hfetch, hdecode, hgate, hloop, hm, hpush, htag, ne_eq,
        not_true_eq_false, if_false, e1, e2, pushCalls_append, layerFetches_append, hf, hp] <;>
      exact ⟨rfl, by simp [layerFetches]⟩


/-- An opted-in event whose description calls all return and whose manifest
marshals: the loop over the layers ends without panic, and the event makes one
push, of the rewritten manifest, and fetches every layer once, in order. -/
theorem optIn_republished {σ : Type} (env : Env σ) (cfg : Config) (reg : Registry) (v : Event)
    (w w1 w2 w3 : σ) (repo : Repository) (reader : Bytes) (manifest : Manifest)
    (hrepo : env.repository w reg v.Target.Repository = (some repo, w1))
    (hfetch : env.fetchReference w1 repo v.Target.Digest = (some reader, w2))
    (hdecode : env.decodeManifest w2 reader = (some manifest, w3))
    (hmarker : mapGet manifest.annotations NotifcationManifestDescription = some "true")
    (hdescribe : ∀ image w, ∃ r, (GetDescriptionFromOpenAI env cfg image w).1 = .returns r)
    (hmarshal : ∀ m, env.marshal m ≠ none) :
    ∃ ls w4 t mjson,
      layersAfter env cfg repo manifest.layers w3 manifest.layers.length = .running ls w4 t ∧
      env.marshal (rewritten manifest ls) = some mjson ∧
      pushCalls (processEvent env cfg reg v w).2.2 =
        [(repo, manifest.mediaType, rewritten manifest ls, mjson,
          (env.pushBytes w4 repo manifest.mediaType mjson).1)] ∧
      layerFetches (processEvent env cfg reg v w).2.2 =
        manifest.layers.map (fun l => (repo, l)) := by
  obtain ⟨ls, w4, t, hloop⟩ :=
    layersAfter_running env cfg repo manifest.layers w3 hdescribe manifest.layers.length
  cases hm : env.marshal (rewritten manifest ls) with
  | none => exact absurd hm (hmarshal _)
  | some mjson =>
    obtain ⟨hp, hf⟩ := processEvent_optIn env cfg reg v w w1 w2 w3 w4 repo reader manifest ls t
      mjson hrepo hfetch hdecode hmarker hloop hm
    exact ⟨ls, w4, t, mjson, hloop, hm, hp, hf⟩

/-- On a batch of one event the calls of the handler are those of the processing of
the event, with the registry client in plain HTTP mode. -/
theorem NotificationHandler_single_event {σ : Type} (env : Env σ) (cfg : Config) (w : σ)
    (reg : Registry) (body : Bytes) (v : Event)
    (hreg : env.newRegistry cfg.RegistryAddress = some reg)
    (hbody : env.unmarshalNotification body = some ⟨[v]⟩) :
    (NotificationHandler env cfg ⟨some body⟩ w).trace =
      (processEvent env cfg { reg with PlainHTTP := true } v w).2.2 := by
  rcases hE : processEvent env cfg { reg with PlainHTTP := true } v w with ⟨f, w1, t⟩
  cases f <;> simp [NotificationHandler, hreg, hbody, eventsLoop, hE]

/-! ## The claims -/

/-- C1. When the repository of an event resolves and its manifest is fetched and
decoded, and the annotation "notification.manifest.description" of the manifest is
absent or differs from "true", the processing of the event ends after the manifest
fetch: it makes no layer fetch, no call to `GetDescriptionFromOpenAI`, no push and
no tag update. -/
theorem optOut_event_not_processed {σ : Type} (env : Env σ) (cfg : Config) (reg : Registry)
    (v : Event) (w w1 w2 w3 : σ) (repo : Repository) (reader : Bytes) (manifest : Manifest)
    (hrepo : env.repository w reg v.Target.Repository = (some repo, w1))
    (hfetch : env.fetchReference w1 repo v.Target.Digest = (some reader, w2))
    (hdecode : env.decodeManifest w2 reader = (some manifest, w3))
    (hmarker : mapGet manifest.annotations NotifcationManifestDescription ≠ some "true") :
    processEvent env cfg reg v w =
        (.next, w3,
          [.repository v.Target.Repository, .fetchReference repo v.Target.Digest]) ∧
      layerFetches (processEvent env cfg reg v w).2.2 = [] ∧
      describeCalls (processEvent env cfg reg v w).2.2 = [] ∧
      pushCalls (processEvent env cfg reg v w).2.2 = [] ∧
      tagCalls (processEvent env cfg reg v w).2.2 = [] := by
  have hgate : ¬ mapIndex (some (initMap manifest.annotations)) NotifcationManifestDescription =
      "true" := fun h => hmarker ((gate_iff manifest).mp h)
  have h : processEvent env cfg reg v w =
      (.next, w3, [.repository v.Target.Repository, .fetchReference repo v.Target.Digest]) := by
    simp only [processEvent, hrepo, hfetch, hdecode, ne_eq, hgate, not_false_eq_true, if_true]
  rw [h]
  exact ⟨rfl, rfl, rfl, rfl, rfl⟩

/-- What the code does for an opted-in manifest when no description call panics:
when the manifest of an event carries the marker
"notification.manifest.description" = "true", every description call returns (a
text or an error) and the manifest marshals, then whatever the fetches and the
description calls answer on each layer, the processing of the event makes exactly
one push, and the annotations of the pushed manifest do not contain the marker. -/
theorem optIn_pushes_once_without_marker {σ : Type} (env : Env σ) (cfg : Config)
    (reg : Registry) (v : Event) (w w1 w2 w3 : σ) (repo : Repository) (reader : Bytes)
    (manifest : Manifest)
    (hrepo : env.repository w reg v.Target.Repository = (some repo, w1))
    (hfetch : env.fetchReference w1 repo v.Target.Digest = (some reader, w2))
    (hdecode : env.decodeManifest w2 reader = (some manifest, w3))
    (hmarker : mapGet manifest.annotations NotifcationManifestDescription = some "true")
    (hdescribe : ∀ image w, ∃ r, (GetDescriptionFromOpenAI env cfg image w).1 = .returns r)
    (hmarshal : ∀ m, env.marshal m ≠ none) :
    ∃ pushed mjson result,
      pushCalls (processEvent env cfg reg v w).2.2 =
        [(repo, manifest.mediaType, pushed, mjson, result)] ∧
      env.marshal pushed = some mjson ∧
      mapGet pushed.annotations NotifcationManifestDescription = none := by
  obtain ⟨ls, w4, t, mjson, _, hm, hp, _⟩ := optIn_republished env cfg reg v w w1 w2 w3 repo
    reader manifest hrepo hfetch hdecode hmarker hdescribe hmarshal
  exact ⟨rewritten manifest ls, mjson, _, hp, hm,
    mapGet_deleteKey_self (some (initMap manifest.annotations)) NotifcationManifestDescription⟩

/-- What the code does for a layer when no description call panics.  For an
opted-in manifest and a layer `i` of it, whatever happens on the
other layers: when the fetch and the read of layer `i` and the description call on
its bytes succeed with the text `text`, layer `i` of the pushed manifest is the
layer with the annotation "acme.description.openai" set to `text`, whatever value it
had; when the fetch, the read or the description call fails, layer `i` of the pushed
manifest is the original layer; and every layer is fetched once, in order,
whichever layers failed. -/
theorem layer_description_by_outcome {σ : Type} (env : Env σ) (cfg : Config)
    (reg : Registry) (v : Event) (w w1 w2 w3 : σ) (repo : Repository) (reader : Bytes)
    (manifest : Manifest) (i : Nat) (layer : Descriptor)
    (hrepo : env.repository w reg v.Target.Repository = (some repo, w1))
    (hfetch : env.fetchReference w1 repo v.Target.Digest = (some reader, w2))
    (hdecode : env.decodeManifest w2 reader = (some manifest, w3))
    (hmarker : mapGet manifest.annotations NotifcationManifestDescription = some "true")
    (hdescribe : ∀ image w, ∃ r, (GetDescriptionFromOpenAI env cfg image w).1 = .returns r)
    (hmarshal : ∀ m, env.marshal m ≠ none)
    (hlayer : manifest.layers[i]? = some layer) :
    ∃ pushed mjson result,
      pushCalls (processEvent env cfg reg v w).2.2 =
        [(repo, manifest.mediaType, pushed, mjson, result)] ∧
      (∀ rs wa bs wb text,
        env.fetch (layersAfter env cfg repo manifest.layers w3 i).world repo layer =
          (some rs, wa) →
        env.readAll wa rs layer = (some bs, wb) →
        (GetDescriptionFromOpenAI env cfg bs wb).1 = .returns (text, none) →
        pushed.layers[i]? = some (annotate layer text) ∧
          mapGet (annotate layer text).annotations descriptionKey = some text) ∧
      ((env.fetch (layersAfter env cfg repo manifest.layers w3 i).world repo layer).1 = none →
        pushed.layers[i]? = some layer) ∧
      (∀ rs wa,
        env.fetch (layersAfter env cfg repo manifest.layers w3 i).world repo layer =
          (some rs, wa) →
        (env.readAll wa rs layer).1 = none →
        pushed.layers[i]? = some layer) ∧
      (∀ rs wa bs wb text e,
        env.fetch (layersAfter env cfg repo manifest.layers w3 i).world repo layer =
          (some rs, wa) →
        env.readAll wa rs layer = (some bs, wb) →
        (GetDescriptionFromOpenAI env cfg bs wb).1 = .returns (text, some e) →
        pushed.layers[i]? = some layer) ∧
      layerFetches (processEvent env cfg reg v w).2.2 =
        manifest.layers.map (fun l => (repo, l)) := by
  obtain ⟨ls, w4, t, mjson, hloop, _, hp, hf⟩ := optIn_republished env cfg reg v w w1 w2 w3 repo
    reader manifest hrepo hfetch hdecode hmarker hdescribe hmarshal
  obtain ⟨_, _, hdone, _⟩ :=
    layersAfter_inv env cfg repo manifest.layers w3 manifest.layers.length ls w4 t hloop
  have hi : i < manifest.layers.length := by
    rcases List.getElem?_eq_some.mp hlayer with ⟨hh, _⟩
    exact hh
  have hls := hdone i hi layer hlayer
  refine ⟨rewritten manifest ls, mjson, _, hp, ?_, ?_, ?_, ?_, hf⟩
  · intro rs wa bs wb text h1 h2 h3
    refine ⟨?_, mapGet_mapSet_self _ _ _⟩
    rw [enrichLayer_success env cfg repo layer _ rs bs wa wb text h1 h2 h3] at hls
    exact hls
  · intro h1
    rw [enrichLayer_fetch_failed env cfg repo layer _ h1] at hls
    exact hls
  · intro rs wa h1 h2
    rw [enrichLayer_read_failed env cfg repo layer _ rs wa h1 h2] at hls
    exact hls
  · intro rs wa bs wb text e h1 h2 h3
    rw [enrichLayer_describe_failed env cfg repo layer _ rs bs wa wb text e h1 h2 h3] at hls
    exact hls

/-- C7. A request whose body does not decode as a notification batch is answered
with status 400, and a request whose body decodes to a batch without events is
answered with status 200; in both cases the handler returns without making any
call to the registry or to the description service. -/
theorem malformed_or_empty_batch {σ : Type} (env : Env σ) (cfg : Config) (w : σ)
    (reg : Registry) (bad empty : Bytes) (payload : Notification)
    (hreg : env.newRegistry cfg.RegistryAddress = some reg)
    (hbad : env.unmarshalNotification bad = none)
    (hempty : env.unmarshalNotification empty = some payload)
    (hzero : payload.Events = []) :
    ((NotificationHandler env cfg ⟨some bad⟩ w).wroteHeader = some 400 ∧
        (NotificationHandler env cfg ⟨some bad⟩ w).panic = none ∧
        statusSent (NotificationHandler env cfg ⟨some bad⟩ w) = some 400 ∧
        (NotificationHandler env cfg ⟨some bad⟩ w).trace = []) ∧
      ((NotificationHandler env cfg ⟨some empty⟩ w).wroteHeader = some 200 ∧
        (NotificationHandler env cfg ⟨some empty⟩ w).panic = none ∧
        statusSent (NotificationHandler env cfg ⟨some empty⟩ w) = some 200 ∧
        (NotificationHandler env cfg ⟨some empty⟩ w).trace = []) := by
  constructor
  · simp [NotificationHandler, hreg, hbad, statusSent]
  · simp [NotificationHandler, hreg, hempty, hzero, eventsLoop, statusSent]


/-- C9. Whatever the collaborators answer, the tag updates that the processing of an
event makes are exactly one for each push that returned a descriptor, with that
descriptor and the tag name "latest" (the tag of the target of the event is not
used); a push that failed is followed by no tag update.  The event makes at most
one push; its bytes are the marshalled manifest, and the recorded result is what
`oras.PushBytes` returned. -/
theorem tag_follows_successful_push {σ : Type} (env : Env σ) (cfg : Config) (reg : Registry)
    (v : Event) (w : σ) :
    tagCalls (processEvent env cfg reg v w).2.2 =
        (pushCalls (processEvent env cfg reg v w).2.2).filterMap
          (fun p => p.2.2.2.2.map (fun d => (p.1, d, "latest"))) ∧
      (pushCalls (processEvent env cfg reg v w).2.2).length ≤ 1 ∧
      ∀ p ∈ pushCalls (processEvent env cfg reg v w).2.2,
        env.marshal p.2.2.1 = some p.2.2.2.1 ∧ p.2.1 = p.2.2.1.mediaType ∧
          ∃ w4, (env.pushBytes w4 p.1 p.2.1 p.2.2.2.1).1 = p.2.2.2.2 := by
  have e1 : ∀ a r b (y : List Effect),
      pushCalls (Effect.repository a :: Effect.fetchReference r b :: y) = pushCalls y :=
    fun _ _ _ _ => rfl
  have e2 : ∀ a r b (y : List Effect),
      tagCalls (Effect.repository a :: Effect.fetchReference r b :: y) = tagCalls y :=
    fun _ _ _ _ => rfl
  rcases hrepo : env.repository w reg v.Target.Repository with ⟨_ | repo, w1⟩
  · simp [processEvent, hrepo, pushCalls, tagCalls]
  rcases hfetch : env.fetchReference w1 repo v.Target.Digest with ⟨_ | reader, w2⟩
  · simp [processEvent, hrepo, hfetch, pushCalls, tagCalls]
  rcases hdecode : env.decodeManifest w2 reader with ⟨_ | manifest, w3⟩
  · simp [processEvent, hrepo, hfetch, hdecode, pushCalls, tagCalls]
  by_cases hgate :
      mapIndex (some (initMap manifest.annotations)) NotifcationManifestDescription = "true"
  swap
  · simp [processEvent, hrepo, hfetch, hdecode, hgate, pushCalls, tagCalls]
  have hq := layersAfter_quiet env cfg repo manifest.layers w3 manifest.layers.length
  cases hloop : layersAfter env cfg repo manifest.layers w3 manifest.layers.length with
  | panicked msg w4 t =>
    rw [hloop] at hq
    obtain ⟨hp, ht, _⟩ := hq
    simp only [Loop.trace] at hp ht
    simp [processEvent, hrepo, hfetch, hdecode, hgate, hloop, e1, e2, hp, ht]
  | running ls w4 t =>
    rw [hloop] at hq
    obtain ⟨hp, ht, _⟩ := hq
    simp only [Loop.trace] at hp ht
    cases hm : env.marshal
        { manifest with
          layers := ls
          annotations := deleteKey (some (initMap manifest.annotations))
            NotifcationManifestDescription } with
    | none => simp [processEvent, hrepo, hfetch, hdecode, hgate, hloop, hm, e1, e2, hp, ht]
    | some mjson =>
      rcases hpush : env.pushBytes w4 repo manifest.mediaType mjson with ⟨_ | d, w5⟩
      · simp only [processEvent, hrepo, hfetch, hdecode, hgate, hloop, hm, hpush, ne_eq,
          not_true_eq_false, if_false, e1, e2, pushCalls_append, tagCalls_append, hp, ht]
        refine ⟨rfl, Nat.le_refl 1, ?_⟩
        intro p hmem
        simp only [pushCalls, List.filterMap_cons, List.filterMap_nil, List.nil_append,
          List.mem_singleton] at hmem
        subst hmem
        exact ⟨hm, rfl, w4, by rw [hpush]⟩
      · rcases htag : env.tag w5 repo d "latest" with ⟨_ | _, w6⟩ <;>
        · simp only [processEvent, hrepo, hfetch, hdecode, hgate, hloop, hm, hpush, htag, ne_eq,
            not_true_eq_false, if_false, e1, e2, pushCalls_append, tagCalls_append, hp, ht]
          refine ⟨rfl, Nat.le_refl 1, ?_⟩
          intro p hmem
          simp only [pushCalls, List.filterMap_cons, List.filterMap_nil, List.nil_append,
            List.mem_singleton] at hmem
          subst hmem
          exact ⟨hm, rfl, w4, by rw [hpush]⟩

/-- No body of the end-to-end scenario decodes to an empty list of choices. -/
theorem carScenario_choices :
    ∀ bs p, carScenario.env.unmarshalOpenAI bs = some p → p.Choices ≠ [] := by
  intro bs p h
  simp only [Scenario.env, carScenario] at h
  split at h
  · cases h
    simp
  · cases h

/-- The manifest of every scenario marshals. -/
theorem Scenario.marshal_total (sc : Scenario) : ∀ m, sc.env.marshal m ≠ none :=
  fun _ h => Option.noConfusion h

/-! ## Witnesses and evaluations -/

/-- The claim C1 on a manifest whose marker is "True": the event ends after the
manifest fetch. -/
theorem optOut_event_not_processed_witness :
    mapGet optOutManifest.annotations NotifcationManifestDescription = some "True" ∧
      processEvent optOutScenario.env demoConfig demoRegistry carEvent 0 =
        (.next, 0, [.repository "app", .fetchReference appRepository "sha256:abc"]) ∧
      layerFetches (processEvent optOutScenario.env demoConfig demoRegistry carEvent 0).2.2 = [] ∧
      describeCalls (processEvent optOutScenario.env demoConfig demoRegistry carEvent 0).2.2 = [] ∧
      pushCalls (processEvent optOutScenario.env demoConfig demoRegistry carEvent 0).2.2 = [] ∧
      tagCalls (processEvent optOutScenario.env demoConfig demoRegistry carEvent 0).2.2 = [] :=
  ⟨by decide,
    optOut_event_not_processed optOutScenario.env demoConfig demoRegistry carEvent 0 0 0 0
      appRepository (bytesOf "sha256:abc") optOutManifest (by decide) (by decide) (by decide)
      (by decide)⟩

/-- The end-to-end scenario makes one push, of a manifest without the marker. -/
theorem optIn_pushes_once_without_marker_witness :
    ∃ pushed mjson result,
      pushCalls (processEvent carScenario.env demoConfig demoRegistry carEvent 0).2.2 =
        [(appRepository, carManifest.mediaType, pushed, mjson, result)] ∧
      carScenario.env.marshal pushed = some mjson ∧
      mapGet pushed.annotations NotifcationManifestDescription = none :=
  optIn_pushes_once_without_marker carScenario.env demoConfig demoRegistry carEvent 0 0 0 0
    appRepository (bytesOf "sha256:abc") carManifest (by decide) (by decide) (by decide)
    (by decide) (GetDescriptionFromOpenAI_returns carScenario.env demoConfig carScenario_choices)
    carScenario.marshal_total

/-- The layers of the end-to-end scenario: the first layer, described as
"a red car", is pushed with that description in place of the old one, and the
second layer, on which the service times out, is pushed as it was. -/
theorem layer_description_by_outcome_witness :
    (∃ pushed mjson result,
      pushCalls (processEvent carScenario.env demoConfig demoRegistry carEvent 0).2.2 =
        [(appRepository, carManifest.mediaType, pushed, mjson, result)] ∧
      pushed.layers[0]? = some (annotate carLayer0 "a red car") ∧
      mapGet (annotate carLayer0 "a red car").annotations descriptionKey = some "a red car") ∧
    (∃ pushed mjson result,
      pushCalls (processEvent carScenario.env demoConfig demoRegistry carEvent 0).2.2 =
        [(appRepository, carManifest.mediaType, pushed, mjson, result)] ∧
      pushed.layers[1]? = some carLayer1 ∧
      layerFetches (processEvent carScenario.env demoConfig demoRegistry carEvent 0).2.2 =
        [(appRepository, carLayer0), (appRepository, carLayer1)]) := by
  constructor
  · obtain ⟨pushed, mjson, result, hp, hs, _⟩ :=
      layer_description_by_outcome carScenario.env demoConfig demoRegistry carEvent 0 0 0 0
        appRepository (bytesOf "sha256:abc") carManifest 0 carLayer0 (by decide) (by decide)
        (by decide) (by decide)
        (GetDescriptionFromOpenAI_returns carScenario.env demoConfig carScenario_choices)
        carScenario.marshal_total (by decide)
    exact ⟨pushed, mjson, result, hp,
      hs [3] 0 [3] 0 "a red car" (by decide) (by decide) (by decide)⟩
  · obtain ⟨pushed, mjson, result, hp, _, _, _, hd, hf⟩ :=
      layer_description_by_outcome carScenario.env demoConfig demoRegistry carEvent 0 0 0 0
        appRepository (bytesOf "sha256:abc") carManifest 1 carLayer1 (by decide) (by decide)
        (by decide) (by decide)
        (GetDescriptionFromOpenAI_returns carScenario.env demoConfig carScenario_choices)
        carScenario.marshal_total (by decide)
    exact ⟨pushed, mjson, result, hp,
      hd [4] 1 [4] 1 "" "failed http request" (by decide) (by decide) (by decide), hf⟩

/-- The claim C7 on the end-to-end scenario: the body `[5]` does not decode and the
body `[0]` decodes to a batch without events. -/
theorem malformed_or_empty_batch_witness :
    ((NotificationHandler carScenario.env demoConfig ⟨some [5]⟩ 0).wroteHeader = some 400 ∧
        (NotificationHandler carScenario.env demoConfig ⟨some [5]⟩ 0).panic = none ∧
        statusSent (NotificationHandler carScenario.env demoConfig ⟨some [5]⟩ 0) = some 400 ∧
        (NotificationHandler carScenario.env demoConfig ⟨some [5]⟩ 0).trace = []) ∧
      ((NotificationHandler carScenario.env demoConfig ⟨some [0]⟩ 0).wroteHeader = some 200 ∧
        (NotificationHandler carScenario.env demoConfig ⟨some [0]⟩ 0).panic = none ∧
        statusSent (NotificationHandler carScenario.env demoConfig ⟨some [0]⟩ 0) = some 200 ∧
        (NotificationHandler carScenario.env demoConfig ⟨some [0]⟩ 0).trace = []) :=
  malformed_or_empty_batch carScenario.env demoConfig 0 ⟨"registry:5000", false⟩ [5] [0] ⟨[]⟩
    (by decide) (by decide) (by decide) (by decide)

/-- C5 fails on the code.  In a batch of two opted-in events whose first tag update
fails, the handler returns after the first event: the repository of the second
event is never resolved and one manifest is pushed.  When the tag update succeeds,
both events are processed. -/
theorem tag_failure_skips_later_events :
    repositoryCalls (NotificationHandler tagFailScenario.env demoConfig ⟨some [2]⟩ 0).trace =
        ["app"] ∧
      (pushCalls (NotificationHandler tagFailScenario.env demoConfig ⟨some [2]⟩ 0).trace).length =
        1 ∧
      repositoryCalls (NotificationHandler tagOkScenario.env demoConfig ⟨some [2]⟩ 0).trace =
        ["app", "other"] ∧
      (pushCalls (NotificationHandler tagOkScenario.env demoConfig ⟨some [2]⟩ 0).trace).length =
        2 := by
  decide

/-- C6 fails on the code.  When the description service answers 200 with an empty
list of choices, the handler ends with a panic: it writes no status and no response
is sent.  When a tag update fails, the handler returns without a call to
`rw.WriteHeader` (the server then sends 200 on its own) and before the second event
of the batch is attempted. -/
theorem handler_ends_without_status :
    ((NotificationHandler emptyChoicesScenario.env demoConfig ⟨some [1]⟩ 0).panic =
        some "runtime error: index out of range [0] with length 0" ∧
      (NotificationHandler emptyChoicesScenario.env demoConfig ⟨some [1]⟩ 0).wroteHeader = none ∧
      statusSent (NotificationHandler emptyChoicesScenario.env demoConfig ⟨some [1]⟩ 0) = none) ∧
    ((NotificationHandler tagFailScenario.env demoConfig ⟨some [2]⟩ 0).wroteHeader = none ∧
      (NotificationHandler tagFailScenario.env demoConfig ⟨some [2]⟩ 0).panic = none ∧
      statusSent (NotificationHandler tagFailScenario.env demoConfig ⟨some [2]⟩ 0) = some 200 ∧
      repositoryCalls (NotificationHandler tagFailScenario.env demoConfig ⟨some [2]⟩ 0).trace =
        ["app"]) := by
  decide

/-- C8 fails on the code.  On a response with status 200 whose body decodes to an
empty list of choices, `GetDescriptionFromOpenAI` panics with an index out of
range instead of returning an error, and the loop over the layers ends there: the
second layer is not fetched. -/
theorem empty_choices_panics :
    (GetDescriptionFromOpenAI emptyChoicesScenario.env demoConfig [3] 0).1 =
        .panics "runtime error: index out of range [0] with length 0" ∧
      (enrichLayer emptyChoicesScenario.env demoConfig appRepository carLayer0 0).1 =
        .panicked "runtime error: index out of range [0] with length 0" ∧
      layerFetches
          (layersAfter emptyChoicesScenario.env demoConfig appRepository carLayers 0 2).trace =
        [(appRepository, carLayer0)] := by
  decide

/-- A failed push is recorded without a descriptor and followed by no tag update;
a push that succeeds is followed by one tag update with the returned descriptor. -/
theorem push_failure_no_tag_example :
    ((pushCalls (processEvent pushFailScenario.env demoConfig demoRegistry carEvent 0).2.2).map
        (fun p => p.2.2.2.2) = [none] ∧
      tagCalls (processEvent pushFailScenario.env demoConfig demoRegistry carEvent 0).2.2 = []) ∧
    ((pushCalls (processEvent carScenario.env demoConfig demoRegistry carEvent 0).2.2).map
        (fun p => p.2.2.2.2) =
        [some ⟨"application/vnd.oci.image.manifest.v1+json", "sha256:new", 43, [], none, [],
          none, ""⟩] ∧
      tagCalls (processEvent carScenario.env demoConfig demoRegistry carEvent 0).2.2 =
        [(appRepository,
          ⟨"application/vnd.oci.image.manifest.v1+json", "sha256:new", 43, [], none, [], none,
            ""⟩, "latest")]) := by
  decide

/-- C2 fails on the code.  The manifest of the event carries the marker "true", its
repository resolves and it is fetched and decoded, and the description service
answers 200 with an empty list of choices on the first layer: the processing of the
event ends with a panic and hands no manifest to the push.  In the batch of two
opted-in events whose first tag update fails, one manifest is pushed for the two
events: none for the second. -/
theorem optIn_event_without_push :
    (mapGet carManifest.annotations NotifcationManifestDescription = some "true" ∧
      emptyChoicesScenario.env.repository 0 demoRegistry carEvent.Target.Repository =
        (some appRepository, 0) ∧
      emptyChoicesScenario.env.fetchReference 0 appRepository carEvent.Target.Digest =
        (some (bytesOf "sha256:abc"), 0) ∧
      emptyChoicesScenario.env.decodeManifest 0 (bytesOf "sha256:abc") = (some carManifest, 0) ∧
      (processEvent emptyChoicesScenario.env demoConfig demoRegistry carEvent 0).1 =
        .panicked "runtime error: index out of range [0] with length 0" ∧
      pushCalls (processEvent emptyChoicesScenario.env demoConfig demoRegistry carEvent 0).2.2 =
        []) ∧
    ((pushCalls (NotificationHandler emptyChoicesScenario.env demoConfig ⟨some [1]⟩ 0).trace) =
        [] ∧
      (pushCalls (NotificationHandler tagFailScenario.env demoConfig ⟨some [2]⟩ 0).trace).map
        (fun p => p.1.name) = ["app"]) := by
  refine ⟨⟨?_, ?_, ?_, ?_, ?_, ?_⟩, ?_, ?_⟩ <;> decide

/-- C4 fails on the code.  On the opted-in manifest with two layers, the fetch and
the read of the first layer succeed and the description service answers 200 with
an empty list of choices: the description call on the first layer does not
succeed, yet the second layer is not processed (the only layer fetch and the only
description call are those of the first layer) and no manifest is pushed, so that
no layer is republished as it was. -/
theorem description_fault_stops_layers :
    emptyChoicesScenario.env.fetch 0 appRepository carLayer0 = (some [3], 0) ∧
      emptyChoicesScenario.env.readAll 0 [3] carLayer0 = (some [3], 0) ∧
      (GetDescriptionFromOpenAI emptyChoicesScenario.env demoConfig [3] 0).1 =
        .panics "runtime error: index out of range [0] with length 0" ∧
      layerFetches (processEvent emptyChoicesScenario.env demoConfig demoRegistry carEvent 0).2.2 =
        [(appRepository, carLayer0)] ∧
      describeCalls (processEvent emptyChoicesScenario.env demoConfig demoRegistry carEvent 0).2.2 =
        [[3]] ∧
      pushCalls (processEvent emptyChoicesScenario.env demoConfig demoRegistry carEvent 0).2.2 =
        [] ∧
      tagCalls (processEvent emptyChoicesScenario.env demoConfig demoRegistry carEvent 0).2.2 =
        [] := by
  refine ⟨?_, ?_, ?_, ?_, ?_, ?_, ?_⟩ <;> decide

end OciPhotos
